import Mathlib

/-!
Verification development for the subprocmgr supervisor (src/subprocmgr.c).

The repository ships the supervisor's protocol documentation (the long
in-header comment of src/subprocmgr.c) together with the C prelude, but the
function bodies of the supervisor itself are not present in the tree.  All
definitions below are therefore modelled from the specification and from the
protocol comment, component by component: the per-tag status-message
lifecycle, the control-channel frame admission, the request decoder, the
output multiplexor, and the global event-driven supervisor machine.
-/

namespace Subprocmgr

/-- A status message on a status pipe: four 32-bit fields
tag, status, value followed by a payload of bytes (whose length is the
fourth field, so it is kept implicit). -/
structure Msg where
  tag : Nat
  status : Nat
  value : Nat
  payload : List Nat
deriving DecidableEq

/-! ### Per-tag status-message lifecycle (claim C1)

Modelled from the spec: the launcher emits exactly one of status 0, 1, 2;
after a status 2 the output multiplexor emits status 3 while a forwarded
stream is open and one status 4 when it closes; the reaper's status 5 is
emitted last, once every forwarded stream has been closed. -/

/-- Phase of a single tag's message lifecycle. -/
inductive Phase
  | start
  | running
  | done
deriving DecidableEq

/-- Per-tag emitter state: the phase, and for each of the two forwardable
streams (stdout = value 1, stderr = value 2) whether it is still open,
i.e. was given disposition "forward" and has not yet been closed. -/
structure TagSt where
  phase : Phase
  outOpen : Bool
  errOpen : Bool
deriving DecidableEq

/-- Modelled from the spec: one emission step for a single tag.  Labels are
(status, value) pairs.  From the initial phase exactly one of 0/1/2 is
emitted; 0 and 1 end the lifecycle at once; 2 opens the running phase in
which each open stream may produce any number of status-3 messages and
exactly one status-4 message (which closes it); status 5 fires only after
both streams are closed and ends the lifecycle. -/
inductive EmitStep : TagSt → Nat × Nat → TagSt → Prop
  | illFormed (o e : Bool) :
      EmitStep ⟨.start, o, e⟩ (0, 0) ⟨.done, false, false⟩
  | sysError (o e : Bool) (errno : Nat) :
      EmitStep ⟨.start, o, e⟩ (1, errno) ⟨.done, false, false⟩
  | started (o e : Bool) (pid : Nat) :
      EmitStep ⟨.start, o, e⟩ (2, pid) ⟨.running, o, e⟩
  | outData (e : Bool) :
      EmitStep ⟨.running, true, e⟩ (3, 1) ⟨.running, true, e⟩
  | errData (o : Bool) :
      EmitStep ⟨.running, o, true⟩ (3, 2) ⟨.running, o, true⟩
  | outClosed (e : Bool) :
      EmitStep ⟨.running, true, e⟩ (4, 1) ⟨.running, false, e⟩
  | errClosed (o : Bool) :
      EmitStep ⟨.running, o, true⟩ (4, 2) ⟨.running, o, false⟩
  | exited (ws : Nat) :
      EmitStep ⟨.running, false, false⟩ (5, ws) ⟨.done, false, false⟩

/-- Reflexive-transitive closure of `EmitStep`, collecting the emitted
(status, value) labels in order. -/
inductive EmitTrace : TagSt → List (Nat × Nat) → TagSt → Prop
  | nil (s : TagSt) : EmitTrace s [] s
  | cons {s s1 s2 : TagSt} {m : Nat × Nat} {tr : List (Nat × Nat)} :
      EmitStep s m s1 → EmitTrace s1 tr s2 → EmitTrace s (m :: tr) s2

/-- Matcher for the tail regular expression (3|4)* 5 over status codes. -/
def tailOk : List Nat → Bool
  | [] => false
  | [5] => true
  | 3 :: r => tailOk r
  | 4 :: r => tailOk r
  | _ => false

/-- Matcher for the regular expression (0 | 1 | 2 (3|4)* 5) over status
codes. -/
def codesOk : List Nat → Bool
  | [0] => true
  | [1] => true
  | 2 :: r => tailOk r
  | _ => false

/-- No status-3 or status-4 message with stream value v occurs in the
trace. -/
def noMoreV (v : Nat) (tr : List (Nat × Nat)) : Bool :=
  tr.all fun m => !(m.2 == v && (m.1 == 3 || m.1 == 4))

/-- Per-stream constraint: after a status-4 message with stream value v, no
further status-3 or status-4 message with that v occurs, hence at most one
4 with that v and the 4 comes after the last 3 with that v. -/
def streamOk (v : Nat) : List (Nat × Nat) → Bool
  | [] => true
  | m :: r => if m.1 == 4 && m.2 == v then noMoreV v r else streamOk v r

theorem emitStep_done_false {a b : Bool} {m : Nat × Nat} {s1 : TagSt}
    (h : EmitStep ⟨Phase.done, a, b⟩ m s1) : False := by
  cases h

/-- Trace invariant for the per-tag emitter: any trace that ends in the done
phase matches the protocol regular expression when started from the start
phase, its tail form when started from the running phase, and is empty when
started from the done phase; moreover a closed stream contributes no further
status-3/4 messages. -/
theorem emitTrace_inv {s : TagSt} {tr : List (Nat × Nat)} {s2 : TagSt}
    (h : EmitTrace s tr s2) : s2.phase = Phase.done →
    (s.phase = Phase.done → tr = []) ∧
    (s.phase = Phase.running →
      tailOk (tr.map Prod.fst) = true ∧ streamOk 1 tr = true ∧ streamOk 2 tr = true ∧
      (s.outOpen = false → noMoreV 1 tr = true) ∧
      (s.errOpen = false → noMoreV 2 tr = true)) ∧
    (s.phase = Phase.start →
      codesOk (tr.map Prod.fst) = true ∧ streamOk 1 tr = true ∧ streamOk 2 tr = true) := by
  induction h with
  | nil s =>
    intro hdone
    refine ⟨fun _ => rfl, fun hr => ?_, fun hs => ?_⟩
    · rw [hr] at hdone; cases hdone
    · rw [hs] at hdone; cases hdone
  | cons h1 h2 ih =>
    intro hdone
    have ih := ih hdone
    cases h1 with
    | illFormed o e =>
      have htr : _ = ([] : List (Nat × Nat)) := ih.1 rfl
      subst htr
      refine ⟨?_, ?_, ?_⟩
      · intro hc; cases hc
      · intro hc; cases hc
      · intro _; exact ⟨rfl, rfl, rfl⟩
    | sysError o e errno =>
      have htr : _ = ([] : List (Nat × Nat)) := ih.1 rfl
      subst htr
      refine ⟨?_, ?_, ?_⟩
      · intro hc; cases hc
      · intro hc; cases hc
      · intro _
        refine ⟨rfl, ?_, ?_⟩ <;> simp [streamOk]
    | started o e pid =>
      obtain ⟨htail, hs1, hs2, _, _⟩ := ih.2.1 rfl
      refine ⟨?_, ?_, ?_⟩
      · intro hc; cases hc
      · intro hc; cases hc
      · intro _
        refine ⟨?_, ?_, ?_⟩
        · simpa [codesOk] using htail
        · simpa [streamOk] using hs1
        · simpa [streamOk] using hs2
    | outData e =>
      obtain ⟨htail, hs1, hs2, ho, he⟩ := ih.2.1 rfl
      refine ⟨?_, ?_, ?_⟩
      · intro hc; cases hc
      · intro _
        refine ⟨?_, ?_, ?_, ?_, ?_⟩
        · simpa [tailOk] using htail
        · simpa [streamOk] using hs1
        · simpa [streamOk] using hs2
        · intro hc; cases hc
        · intro hc; simpa [noMoreV] using he hc
      · intro hc; cases hc
    | errData o =>
      obtain ⟨htail, hs1, hs2, ho, he⟩ := ih.2.1 rfl
      refine ⟨?_, ?_, ?_⟩
      · intro hc; cases hc
      · intro _
        refine ⟨?_, ?_, ?_, ?_, ?_⟩
        · simpa [tailOk] using htail
        · simpa [streamOk] using hs1
        · simpa [streamOk] using hs2
        · intro hc; simpa [noMoreV] using ho hc
        · intro hc; cases hc
      · intro hc; cases hc
    | outClosed e =>
      obtain ⟨htail, hs1, hs2, ho, he⟩ := ih.2.1 rfl
      refine ⟨?_, ?_, ?_⟩
      · intro hc; cases hc
      · intro _
        refine ⟨?_, ?_, ?_, ?_, ?_⟩
        · simpa [tailOk] using htail
        · simpa [streamOk] using ho rfl
        · simpa [streamOk] using hs2
        · intro hc; cases hc
        · intro hc; simpa [noMoreV] using he hc
      · intro hc; cases hc
    | errClosed o =>
      obtain ⟨htail, hs1, hs2, ho, he⟩ := ih.2.1 rfl
      refine ⟨?_, ?_, ?_⟩
      · intro hc; cases hc
      · intro _
        refine ⟨?_, ?_, ?_, ?_, ?_⟩
        · simpa [tailOk] using htail
        · simpa [streamOk] using hs1
        · simpa [streamOk] using he rfl
        · intro hc; simpa [noMoreV] using ho hc
        · intro hc; cases hc
      · intro hc; cases hc
    | exited ws =>
      have htr : _ = ([] : List (Nat × Nat)) := ih.1 rfl
      subst htr
      refine ⟨?_, ?_, ?_⟩
      · intro hc; cases hc
      · intro _
        refine ⟨rfl, ?_, ?_, ?_, ?_⟩
        · simp [streamOk]
        · simp [streamOk]
        · intro _; simp [noMoreV]
        · intro _; simp [noMoreV]
      · intro hc; cases hc

/-- C1: for every tag accepted by the supervisor, every complete lifecycle
trace of status messages matches the regular expression (0 | 1 | 2 (3|4)* 5)
over status codes, and for each stream value v in {1,2} there is at most one
status-4 message with that v and it comes only after the last status-3
message with that v. -/
theorem c1_status_ordering (o e fo fe : Bool) (tr : List (Nat × Nat))
    (h : EmitTrace ⟨Phase.start, o, e⟩ tr ⟨Phase.done, fo, fe⟩) :
    codesOk (tr.map Prod.fst) = true ∧ streamOk 1 tr = true ∧ streamOk 2 tr = true :=
  (emitTrace_inv h rfl).2.2 rfl

/-- Witness for C1: the concrete lifecycle 2, 3, 3, 4, 5 of a child with
forwarded stdout satisfies the ordering contract. -/
theorem c1_status_ordering_witness :
    codesOk (([((2:Nat),(100:Nat)), (3,1), (3,1), (4,1), (5,0)]).map Prod.fst) = true ∧
    streamOk 1 [((2:Nat),(100:Nat)), (3,1), (3,1), (4,1), (5,0)] = true ∧
    streamOk 2 [((2:Nat),(100:Nat)), (3,1), (3,1), (4,1), (5,0)] = true :=
  c1_status_ordering true false false false _
    (.cons (.started true false 100)
      (.cons (.outData false)
        (.cons (.outData false)
          (.cons (.outClosed false)
            (.cons (.exited 0) (.nil _))))))

/-! ### Control-channel frame admission (claims C4, C9)

Modelled from the spec: each spawn request arrives as a header giving
data_len and n_fds followed by data_len bytes and n_fds descriptors passed
as ancillary rights data; fds[0] is the mandatory status pipe. -/

/-- A received control-channel frame: the advertised byte length of the
inline data and the list of passed descriptors (whose length is n_fds,
since the receive operation delivers exactly the advertised descriptors). -/
structure Frame where
  dataLen : Nat
  fds : List Nat
deriving DecidableEq

/-- The n_fds field of the header. -/
def Frame.nFds (f : Frame) : Nat := f.fds.length

/-- Modelled from the spec: a frame is well-formed when it provides at
least 16 bytes of data and at least one file descriptor. -/
def wellFormed (f : Frame) : Bool :=
  decide (16 ≤ f.dataLen ∧ 1 ≤ f.fds.length)

/-- Outcome of admitting one frame. -/
inductive FrameResult
  | accept
  | rejectStatus0 (statusFd : Nat)
  | rejectStderr
deriving DecidableEq

/-- Modelled from the spec: an ill-formed frame is reported with status 0
on the status channel when one can be identified (the first passed
descriptor), otherwise an error line goes to the diagnostic stream; only a
well-formed frame is passed on to the decoder. -/
def admitFrame (f : Frame) : FrameResult :=
  if wellFormed f then .accept
  else
    match f.fds with
    | [] => .rejectStderr
    | fd0 :: _ => .rejectStatus0 fd0

/-- Modelled from the spec: on rejection all received descriptors are
closed; an accepted frame's descriptors are kept for the spawn. -/
def admitClosedFds (f : Frame) : List Nat :=
  if wellFormed f then [] else f.fds

/-- Modelled from the spec: the status channel of a request is its first
passed descriptor; a request carrying no descriptors has no status
channel. -/
def statusChannel (f : Frame) : Option Nat := f.fds.head?

/-- C4: a frame violating data_len ≥ 16 or n_fds ≥ 1 is never accepted (so
no child is created from it), all its received descriptors are closed, and
it is reported as ill-formed with status 0 on the first passed descriptor
when there is one, otherwise by an error line on the diagnostic stream. -/
theorem c4_illformed_frame (f : Frame) (h : ¬(16 ≤ f.dataLen ∧ 1 ≤ f.fds.length)) :
    admitFrame f ≠ FrameResult.accept ∧
    admitClosedFds f = f.fds ∧
    admitFrame f = (match f.fds.head? with
      | some fd0 => FrameResult.rejectStatus0 fd0
      | none => FrameResult.rejectStderr) := by
  have hw : wellFormed f = false := decide_eq_false h
  refine ⟨?_, ?_, ?_⟩
  · cases hfds : f.fds with
    | nil => simp [admitFrame, hw, hfds]
    | cons fd0 r => simp [admitFrame, hw, hfds]
  · simp [admitClosedFds, hw]
  · cases hfds : f.fds with
    | nil => simp [admitFrame, hw, hfds]
    | cons fd0 r => simp [admitFrame, hw, hfds]

/-- Witness for C4: a frame with only 8 data bytes and two descriptors is
rejected with status 0 on its first descriptor, and both descriptors are
closed. -/
theorem c4_illformed_frame_witness :
    admitFrame ⟨8, [5, 6]⟩ ≠ FrameResult.accept ∧
    admitClosedFds ⟨8, [5, 6]⟩ = [5, 6] ∧
    admitFrame ⟨8, [5, 6]⟩ = FrameResult.rejectStatus0 5 :=
  c4_illformed_frame ⟨8, [5, 6]⟩ (by decide)

/-! ### Request decoder (claims C7, C8) -/

/-- Sentinel environment-variable count 0xFFFFFFFF, meaning: inherit the
supervisor's environment. -/
def envcInherit : Nat := 4294967295

/-- Decoded inline data of a spawn request: tag, flags byte, the three
disposition bytes, the argument and environment counts, and the packed
NUL-terminated string section (executable name, argument strings,
environment strings) as byte strings. -/
structure SpawnBody where
  tag : Nat
  flags : Nat
  disp0 : Nat
  disp1 : Nat
  disp2 : Nat
  argc : Nat
  envc : Nat
  strs : List (List Nat)
deriving DecidableEq

/-- Number of environment strings present in the string section: zero when
the sentinel count requests inheriting the supervisor's environment. -/
def envcEffective (b : SpawnBody) : Nat :=
  if b.envc = envcInherit then 0 else b.envc

/-- Modelled from the spec: a disposition byte is valid iff it is 0xFF
(inherit), 0 (/dev/null for fd 0, forward for fds 1 and 2), or an existing
passed-descriptor index k with 1 ≤ k ≤ n_fds − 1. -/
def dispOk (nfds d : Nat) : Bool :=
  d == 255 || d == 0 || decide (1 ≤ d ∧ d < nfds)

/-- Modelled from the spec: request validation: flags must be zero, the
three dispositions must be valid, and the string section must hold exactly
the executable name, the argc argument strings and the effective number of
environment strings. -/
def bodyValid (nfds : Nat) (b : SpawnBody) : Bool :=
  b.flags == 0 &&
  dispOk nfds b.disp0 && dispOk nfds b.disp1 && dispOk nfds b.disp2 &&
  b.strs.length == 1 + b.argc + envcEffective b

/-- Outcome of decoding one request body. -/
inductive DecodeResult
  | ok (b : SpawnBody)
  | illFormed
deriving DecidableEq

/-- Modelled from the spec: any validation failure yields status 0 with a
descriptive message and no child is created. -/
def decodeBody (nfds : Nat) (b : SpawnBody) : DecodeResult :=
  if bodyValid nfds b then .ok b else .illFormed

/-- Sources a child's standard descriptor can be wired to. -/
inductive FdSource
  | inherit
  | devNull
  | forwardPipe
  | passed (fd : Nat)
deriving DecidableEq

/-- Modelled from the spec: wiring of child standard descriptor i from its
disposition byte: 0xFF inherits the supervisor's descriptor, 0 opens
/dev/null for fd 0 and a forwarding pipe for fds 1 and 2, and any other
value k attaches the k-th passed descriptor when that index exists. -/
def wireDisp (fds : List Nat) (i d : Nat) : Option FdSource :=
  if d = 255 then some .inherit
  else if d = 0 then some (if i = 0 then .devNull else .forwardPipe)
  else
    match fds.get? d with
    | some fd => some (.passed fd)
    | none => none

/-- C8: a disposition byte is accepted only if it is 0xFF or it is in
[0, 0xFE] and references an existing passed-descriptor index; a body with
any invalid disposition decodes to the ill-formed outcome (status 0, no
child); and a valid index k with 1 ≤ k ≤ n_fds − 1 wires the child
descriptor to the k-th passed descriptor. -/
theorem c8_disposition_validation (nfds k i : Nat) (d : Nat) (b : SpawnBody)
    (fds : List Nat) (hlen : fds.length = nfds)
    (hk1 : 1 ≤ k) (hk2 : k < nfds) (hk3 : k ≤ 254) :
    (dispOk nfds d = true ↔ (d = 255 ∨ d = 0 ∨ (1 ≤ d ∧ d < nfds))) ∧
    ((dispOk nfds b.disp0 = false ∨ dispOk nfds b.disp1 = false ∨
        dispOk nfds b.disp2 = false) →
      decodeBody nfds b = DecodeResult.illFormed) ∧
    wireDisp fds i k = (fds.get? k).map FdSource.passed ∧
    (fds.get? k).isSome = true := by
  have h255 : k ≠ 255 := by omega
  have h0 : k ≠ 0 := by omega
  refine ⟨?_, ?_, ?_, ?_⟩
  · simp [dispOk]; tauto
  · intro hd
    have hb : bodyValid nfds b = false := by
      rcases hd with h | h | h <;> simp [bodyValid, h]
    simp [decodeBody, hb]
  · rw [wireDisp, if_neg h255, if_neg h0]
    cases fds.get? k <;> rfl
  · have hlt : k < fds.length := by omega
    simp [List.getElem?_eq_getElem hlt]

/-- Witness for C8: with two passed descriptors, disposition 1 on child fd
1 attaches the second passed descriptor (index 1), and a body whose stdout
disposition is the out-of-range index 7 is rejected. -/
theorem c8_disposition_validation_witness :
    (dispOk 2 7 = true ↔ (7 = 255 ∨ 7 = 0 ∨ (1 ≤ 7 ∧ 7 < 2))) ∧
    ((dispOk 2 (⟨9, 0, 255, 7, 255, 0, 0, [[47]]⟩ : SpawnBody).disp0 = false ∨
        dispOk 2 (⟨9, 0, 255, 7, 255, 0, 0, [[47]]⟩ : SpawnBody).disp1 = false ∨
        dispOk 2 (⟨9, 0, 255, 7, 255, 0, 0, [[47]]⟩ : SpawnBody).disp2 = false) →
      decodeBody 2 (⟨9, 0, 255, 7, 255, 0, 0, [[47]]⟩ : SpawnBody) =
        DecodeResult.illFormed) ∧
    wireDisp [30, 31] 1 1 = ([30, 31].get? 1).map FdSource.passed ∧
    (([30, 31] : List Nat).get? 1).isSome = true :=
  c8_disposition_validation 2 1 1 7 ⟨9, 0, 255, 7, 255, 0, 0, [[47]]⟩ [30, 31]
    (by decide) (by decide) (by decide) (by decide)

/-- The executable-name string of a request: the first packed string. -/
def exeName (b : SpawnBody) : List Nat := b.strs.headD []

/-- The argument strings supplied with a request. -/
def argvStrings (b : SpawnBody) : List (List Nat) := (b.strs.drop 1).take b.argc

/-- The environment strings supplied with a request. -/
def envStrings (b : SpawnBody) : List (List Nat) :=
  (b.strs.drop (1 + b.argc)).take (envcEffective b)

/-- Modelled from the spec: argument vector passed to execve: if the
argument count is zero the executable name is reused as the sole argv
entry. -/
def execArgv (b : SpawnBody) : List (List Nat) :=
  if b.argc = 0 then [exeName b] else argvStrings b

/-- Modelled from the spec: environment passed to execve: the sentinel
count 0xFFFFFFFF inherits the supervisor's environment and ignores any
supplied environment strings; otherwise exactly the supplied environment
strings are used, so a zero count gives a completely empty environment. -/
def execEnv (supEnv : List (List Nat)) (b : SpawnBody) : List (List Nat) :=
  if b.envc = envcInherit then supEnv else envStrings b

/-- C7: argc = 0 gives the argument vector [executable_name]; envc =
0xFFFFFFFF executes the child with the supervisor's current environment,
ignoring supplied environment strings; envc = 0 executes the child with a
completely empty environment. -/
theorem c7_exec_vectors (supEnv : List (List Nat)) (b : SpawnBody) :
    (b.argc = 0 → execArgv b = [exeName b]) ∧
    (b.envc = envcInherit → execEnv supEnv b = supEnv) ∧
    (b.envc = 0 → execEnv supEnv b = []) := by
  refine ⟨?_, ?_, ?_⟩
  · intro h; simp [execArgv, h]
  · intro h; simp [execEnv, h]
  · intro h; simp [execEnv, envStrings, envcEffective, envcInherit, h]

/-! ### Output multiplexor (claim C5) -/

/-- Modelled from the spec: forwarding of one child output stream.  The
input is the list of successive successful reads from the pipe; each
non-empty read is emitted unchanged as one status-3 message with the
stream's value, and the zero-length read (peer closed) emits the closing
status-4 message and ends the stream.  No reblocking or transformation is
performed. -/
def forwardStream (tag v : Nat) : List (List Nat) → List Msg
  | [] => []
  | chunk :: rest =>
    if chunk.isEmpty then [⟨tag, 4, v, []⟩]
    else ⟨tag, 3, v, chunk⟩ :: forwardStream tag v rest

/-- Payloads of the status-3 messages with stream value v, in emission
order. -/
def status3Payloads (v : Nat) (ms : List Msg) : List (List Nat) :=
  (ms.filter fun m => m.status == 3 && m.value == v).map Msg.payload

/-- C5: if a child writes N bytes to its forwarded stdout and the kernel
delivers them to the supervisor as a sequence of non-empty reads followed
by the end-of-file read, then the concatenation of the status-3 payloads
with value 1, in emission order, equals those N bytes, and each successful
read produces exactly one status-3 message. -/
theorem c5_output_roundtrip (tag : Nat) (data : List Nat)
    (chunks : List (List Nat)) (hne : ∀ c ∈ chunks, c ≠ [])
    (hjoin : chunks.flatten = data) :
    (status3Payloads 1 (forwardStream tag 1 (chunks ++ [[]]))).flatten = data ∧
    (forwardStream tag 1 (chunks ++ [[]])).countP (fun m => m.status == 3) =
      chunks.length := by
  subst hjoin
  induction chunks with
  | nil => simp [forwardStream, status3Payloads]
  | cons c r ih =>
    have hc : c.isEmpty = false := by
      cases c with
      | nil => exact absurd rfl (hne [] (by simp))
      | cons a as => rfl
    have ih2 := ih fun x hx => hne x (List.mem_cons_of_mem c hx)
    simp only [List.cons_append, forwardStream, hc, Bool.false_eq_true,
      if_false, status3Payloads, List.filter_cons, List.flatten_cons,
      List.countP_cons, List.length_cons]
    simp only [status3Payloads] at ih2
    constructor
    · simpa using ih2.1
    · simpa using ih2.2

/-- Witness for C5: two reads of two and one bytes concatenate back to the
three injected bytes, and produce exactly two status-3 messages. -/
theorem c5_output_roundtrip_witness :
    (status3Payloads 1 (forwardStream 9 1 ([[104, 105], [33]] ++ [[]]))).flatten =
      [104, 105, 33] ∧
    (forwardStream 9 1 ([[104, 105], [33]] ++ [[]])).countP
      (fun m => m.status == 3) = ([[104, 105], [33]] : List (List Nat)).length :=
  c5_output_roundtrip 9 [104, 105, 33] [[104, 105], [33]] (by decide) (by decide)

/-! ### Global supervisor machine (claims C2, C3, C6, C9, C10)

Modelled from the spec and the protocol comment of src/subprocmgr.c: the
single-threaded event loop around the readiness multiplexor, its child
table, its shutdown state machine, and its write-error policy (the
protocol comment's policy: a write error on a status pipe sends SIGTERM to
the associated subprocess, SIGKILL five seconds later if it is still
running, and all further output from it is read and discarded). -/

/-- Signal number of SIGTERM. -/
def SIGTERM : Nat := 15

/-- Signal number of SIGKILL. -/
def SIGKILL : Nat := 9

/-- The shutdown grace period, in seconds. -/
def graceSeconds : Nat := 5

/-- A child record in the supervisor's table: tag, process id, the status
pipe received as the request's first descriptor, the open flags of the two
forwarded pipes, the wait status once reaped, the per-child suppression
flag set by a status-pipe write error, and the pending five-second SIGKILL
escalation that follows such a write error. -/
structure Child where
  tag : Nat
  pid : Nat
  statusFd : Nat
  outOpen : Bool
  errOpen : Bool
  waitStatus : Option Nat
  suppressed : Bool
  killPending : Bool
deriving DecidableEq

/-- A child is live while its process has not been reaped. -/
def Child.live (c : Child) : Bool := c.waitStatus.isNone

/-- A record is terminal once the child has been reaped and both forwarded
pipes are closed; terminal records are removed from the table. -/
def Child.terminal (c : Child) : Bool :=
  !c.live && !c.outOpen && !c.errOpen

/-- Whether forwarded stream v (1 = stdout, 2 = stderr) is still open. -/
def Child.streamOpen (c : Child) (v : Nat) : Bool :=
  if v = 1 then c.outOpen else if v = 2 then c.errOpen else false

/-- The record of a child after a write error on its status pipe: output
suppressed, five-second SIGKILL escalation pending. -/
def Child.suppress (c : Child) : Child :=
  { c with suppressed := true, killPending := true }

/-- Close forwarded stream v of a record. -/
def Child.closeStream (c : Child) (v : Nat) : Child :=
  if v = 1 then { c with outOpen := false }
  else if v = 2 then { c with errOpen := false }
  else c

/-- The byte channels the supervisor touches. -/
inductive Chan
  | stdin
  | stdout
  | stderr
  | ctl
  | statusPipe (fd : Nat)
  | childPipe (tag v : Nat)
deriving DecidableEq

/-- Observable actions of one event-loop step. -/
inductive Action
  | readChan (c : Chan)
  | writeMsg (c : Chan) (m : Msg)
  | diagLine (c : Chan)
  | closeChan (c : Chan)
  | closeFd (fd : Nat)
  | sendSig (sig pid : Nat)
  | exitCode (code : Nat)
deriving DecidableEq

/-- Lifecycle mode of the supervisor. -/
inductive Mode
  | run
  | draining
  | hardDraining
  | finished
deriving DecidableEq

/-- Global supervisor state: the lifecycle mode, whether the read side of
the control channel is still open, the remaining grace timer, and the
child table. -/
structure SupState where
  mode : Mode
  ctlOpen : Bool
  grace : Option Nat
  children : List Child
deriving DecidableEq

/-- Events the event loop reacts to. -/
inductive Event
  | ctlEof
  | ctlReadError
  | badFrame (f : Frame)
  | spawned (tag pid statusFd : Nat) (fwdOut fwdErr : Bool)
  | pipeData (tag v : Nat) (chunk : List Nat)
  | pipeClosed (tag v : Nat)
  | childReaped (tag ws : Nat)
  | graceExpired
  | statusWriteError (tag : Nat)
  | killTimerExpired (tag : Nat)
deriving DecidableEq

/-- Look up the first record with the given tag. -/
def findChild (t : Nat) : List Child → Option Child
  | [] => none
  | c :: r => if c.tag = t then some c else findChild t r

/-- Apply an update to the first record with the given tag. -/
def updateChild (t : Nat) (f : Child → Child) : List Child → List Child
  | [] => []
  | c :: r => if c.tag = t then f c :: r else c :: updateChild t f r

/-- Remove the first record with the given tag. -/
def removeChild (t : Nat) : List Child → List Child
  | [] => []
  | c :: r => if c.tag = t then r else c :: removeChild t r

/-- Signal every live child. -/
def liveSignals (sig : Nat) (cs : List Child) : List Action :=
  (cs.filter Child.live).map fun c => Action.sendSig sig c.pid

/-- Modelled from the spec: a status message for a child is written to its
status pipe, unless output for that child has been suppressed by an
earlier write error, in which case it is discarded. -/
def statusEmit (c : Child) (m : Msg) : List Action :=
  if c.suppressed then [] else [Action.writeMsg (Chan.statusPipe c.statusFd) m]

/-- Actions emitted at the moment a record becomes terminal: the status-5
exit message carrying the raw wait status (silent for a suppressed
record). -/
def finalActions (c : Child) : List Action :=
  match c.waitStatus with
  | some ws => statusEmit c ⟨c.tag, 5, ws, []⟩
  | none => []

/-- Modelled from the spec: once the supervisor is shutting down and the
child table is empty, it exits with status 0. -/
def exitIfIdle (st : SupState) : SupState × List Action :=
  if st.mode ≠ Mode.run ∧ st.children.isEmpty then
    ({ st with mode := Mode.finished }, [Action.exitCode 0])
  else (st, [])

/-- Write back (or, when terminal, finalize and remove) an updated child
record. -/
def settleChild (st : SupState) (c : Child) : SupState × List Action :=
  if c.terminal then
    let st2 := { st with children := removeChild c.tag st.children }
    let p := exitIfIdle st2
    (p.1, finalActions c ++ p.2)
  else
    ({ st with children := updateChild c.tag (fun _ => c) st.children }, [])

/-- Modelled from the spec: entering the DRAIN state: SIGTERM every live
child, stop reading spawn requests, close the read side of the control
channel and arm the five-second grace timer; if the table is already empty
the supervisor exits with status 0 at once. -/
def enterDrain (st : SupState) : SupState × List Action :=
  if st.children.isEmpty then
    (⟨Mode.finished, false, none, st.children⟩,
     liveSignals SIGTERM st.children ++ [Action.closeChan Chan.ctl, Action.exitCode 0])
  else
    (⟨Mode.draining, false, some graceSeconds, st.children⟩,
     liveSignals SIGTERM st.children ++ [Action.closeChan Chan.ctl])

/-- Modelled from the spec and the protocol comment of src/subprocmgr.c:
one reaction of the supervisor's event loop.  End of stream (or a read
error) on the control channel enters DRAIN; the grace timer expiring
escalates every surviving child to SIGKILL; an accepted spawn registers a
child and reports status 2; data and EOF on forwarded pipes emit status 3
and status 4 and finalize terminal records; reaping records the wait
status and emits status 5 last; a status-pipe write error sends SIGTERM to
the associated child, suppresses its further output, and schedules the
five-second SIGKILL escalation. -/
def step (st : SupState) (e : Event) : SupState × List Action :=
  match e with
  | .ctlEof =>
    if st.mode = Mode.run ∧ st.ctlOpen = true then
      let p := enterDrain st
      (p.1, Action.readChan Chan.ctl :: p.2)
    else (st, [])
  | .ctlReadError =>
    if st.mode = Mode.run ∧ st.ctlOpen = true then
      let p := enterDrain st
      (p.1, Action.readChan Chan.ctl :: p.2)
    else (st, [])
  | .badFrame f =>
    if st.mode = Mode.run ∧ st.ctlOpen = true ∧ wellFormed f = false then
      (st, Action.readChan Chan.ctl ::
        ((match admitFrame f with
          | FrameResult.rejectStatus0 fd0 =>
            [Action.writeMsg (Chan.statusPipe fd0) ⟨0, 0, 0, []⟩]
          | FrameResult.rejectStderr => [Action.diagLine Chan.stderr]
          | FrameResult.accept => []) ++
         (admitClosedFds f).map Action.closeFd))
    else (st, [])
  | .spawned tag pid statusFd fwdOut fwdErr =>
    if st.mode = Mode.run ∧ st.ctlOpen = true then
      ({ st with children :=
          st.children ++ [⟨tag, pid, statusFd, fwdOut, fwdErr, none, false, false⟩] },
       [Action.readChan Chan.ctl,
        Action.writeMsg (Chan.statusPipe statusFd) ⟨tag, 2, pid, []⟩])
    else (st, [])
  | .pipeData tag v chunk =>
    match findChild tag st.children with
    | none => (st, [])
    | some c =>
      if c.streamOpen v = true ∧ chunk ≠ [] then
        (st, Action.readChan (Chan.childPipe tag v) :: statusEmit c ⟨tag, 3, v, chunk⟩)
      else (st, [])
  | .pipeClosed tag v =>
    match findChild tag st.children with
    | none => (st, [])
    | some c =>
      if c.streamOpen v = true then
        let p := settleChild st (c.closeStream v)
        (p.1, Action.readChan (Chan.childPipe tag v) ::
          Action.closeChan (Chan.childPipe tag v) ::
          (statusEmit c ⟨tag, 4, v, []⟩ ++ p.2))
      else (st, [])
  | .childReaped tag ws =>
    match findChild tag st.children with
    | none => (st, [])
    | some c =>
      if c.live = true then
        let p := settleChild st { c with waitStatus := some ws }
        (p.1, p.2)
      else (st, [])
  | .graceExpired =>
    if st.mode = Mode.draining ∧ st.grace.isSome = true then
      ({ st with mode := Mode.hardDraining, grace := none },
       liveSignals SIGKILL st.children)
    else (st, [])
  | .statusWriteError tag =>
    match findChild tag st.children with
    | none => (st, [])
    | some c =>
      if c.suppressed = false then
        ({ st with children := updateChild tag (fun _ => c.suppress) st.children },
         if c.live = true then [Action.sendSig SIGTERM c.pid] else [])
      else (st, [])
  | .killTimerExpired tag =>
    match findChild tag st.children with
    | none => (st, [])
    | some c =>
      if c.killPending = true ∧ c.live = true then
        (st, [Action.sendSig SIGKILL c.pid])
      else (st, [])

theorem mem_liveSignals (sig : Nat) (cs : List Child) (c : Child)
    (hc : c ∈ cs) (hl : c.live = true) :
    Action.sendSig sig c.pid ∈ liveSignals sig cs :=
  List.mem_map_of_mem _ (List.mem_filter.mpr ⟨hc, hl⟩)

theorem findChild_some_tag {t : Nat} {cs : List Child} {c : Child}
    (h : findChild t cs = some c) : c.tag = t := by
  induction cs with
  | nil => cases h
  | cons d r ih =>
    rw [findChild] at h
    by_cases hd : d.tag = t
    · rw [if_pos hd] at h
      injection h with h
      subst h
      exact hd
    · rw [if_neg hd] at h
      exact ih h

theorem closeStream_tag (c : Child) (v : Nat) : (c.closeStream v).tag = c.tag := by
  unfold Child.closeStream
  split
  · rfl
  · split <;> rfl

theorem closeStream_live (c : Child) (v : Nat) :
    (c.closeStream v).live = c.live := by
  unfold Child.closeStream
  split
  · rfl
  · split <;> rfl

/-- C3: on end-of-stream (or a read error) on the control channel the
supervisor sends SIGTERM to every live child, stops reacting to spawn
requests, closes its read side of the control channel and arms the
five-second grace timer; if the timer expires every still-live child gets
SIGKILL; and the supervisor exits with status 0 as soon as the child table
is empty: at once if it is already empty at end-of-stream, and otherwise
at the shutdown-mode step that settles the last child record, whether that
is the reap of the last child or the end-of-file of its last forwarded
pipe. -/
theorem c3_shutdown (st : SupState) (hm : st.mode = Mode.run)
    (hc : st.ctlOpen = true) :
    (∀ c ∈ st.children, c.live = true →
      Action.sendSig SIGTERM c.pid ∈ (step st Event.ctlEof).2) ∧
    (step st Event.ctlEof).1.ctlOpen = false ∧
    Action.closeChan Chan.ctl ∈ (step st Event.ctlEof).2 ∧
    (step st Event.ctlEof).1.mode ≠ Mode.run ∧
    (st.children ≠ [] → (step st Event.ctlEof).1.grace = some graceSeconds) ∧
    (∀ tag pid sfd : Nat, ∀ fo fe : Bool, step (step st Event.ctlEof).1
      (Event.spawned tag pid sfd fo fe) = ((step st Event.ctlEof).1, [])) ∧
    step st Event.ctlReadError = step st Event.ctlEof ∧
    (∀ st2 : SupState, st2.mode = Mode.draining → st2.grace.isSome = true →
      ∀ c ∈ st2.children, c.live = true →
        Action.sendSig SIGKILL c.pid ∈ (step st2 Event.graceExpired).2) ∧
    (st.children = [] → Action.exitCode 0 ∈ (step st Event.ctlEof).2 ∧
      (step st Event.ctlEof).1.mode = Mode.finished) ∧
    (∀ st4 : SupState, ∀ tg4 ws : Nat, ∀ c4 : Child,
      st4.mode ≠ Mode.run → findChild tg4 st4.children = some c4 →
      c4.live = true → c4.outOpen = false → c4.errOpen = false →
      removeChild tg4 st4.children = [] →
      Action.exitCode 0 ∈ (step st4 (Event.childReaped tg4 ws)).2 ∧
      (step st4 (Event.childReaped tg4 ws)).1.mode = Mode.finished ∧
      (step st4 (Event.childReaped tg4 ws)).1.children = []) ∧
    (∀ st5 : SupState, ∀ tg5 v : Nat, ∀ c5 : Child,
      st5.mode ≠ Mode.run → findChild tg5 st5.children = some c5 →
      c5.streamOpen v = true → (c5.closeStream v).terminal = true →
      removeChild tg5 st5.children = [] →
      Action.exitCode 0 ∈ (step st5 (Event.pipeClosed tg5 v)).2 ∧
      (step st5 (Event.pipeClosed tg5 v)).1.mode = Mode.finished ∧
      (step st5 (Event.pipeClosed tg5 v)).1.children = []) := by
  have hif : step st Event.ctlEof =
      ((enterDrain st).1, Action.readChan Chan.ctl :: (enterDrain st).2) := by
    simp [step, hm, hc]
  have hreap : ∀ st4 : SupState, ∀ tg4 ws : Nat, ∀ c4 : Child,
      st4.mode ≠ Mode.run → findChild tg4 st4.children = some c4 →
      c4.live = true → c4.outOpen = false → c4.errOpen = false →
      removeChild tg4 st4.children = [] →
      Action.exitCode 0 ∈ (step st4 (Event.childReaped tg4 ws)).2 ∧
      (step st4 (Event.childReaped tg4 ws)).1.mode = Mode.finished ∧
      (step st4 (Event.childReaped tg4 ws)).1.children = [] := by
    intro st4 tg4 ws c4 hm4 hfind hlive hout herr hrem
    have htag : c4.tag = tg4 := findChild_some_tag hfind
    have hw : c4.waitStatus = none := Option.isNone_iff_eq_none.mp hlive
    refine ⟨?_, ?_, ?_⟩ <;>
      simp [step, hfind, Child.live, hw, settleChild, Child.terminal, hout, herr,
        htag, hrem, exitIfIdle, hm4, finalActions, statusEmit]
  have hpipe : ∀ st5 : SupState, ∀ tg5 v : Nat, ∀ c5 : Child,
      st5.mode ≠ Mode.run → findChild tg5 st5.children = some c5 →
      c5.streamOpen v = true → (c5.closeStream v).terminal = true →
      removeChild tg5 st5.children = [] →
      Action.exitCode 0 ∈ (step st5 (Event.pipeClosed tg5 v)).2 ∧
      (step st5 (Event.pipeClosed tg5 v)).1.mode = Mode.finished ∧
      (step st5 (Event.pipeClosed tg5 v)).1.children = [] := by
    intro st5 tg5 v c5 hm5 hfind hopen hterm hrem
    have htag : c5.tag = tg5 := findChild_some_tag hfind
    refine ⟨?_, ?_, ?_⟩ <;>
      simp [step, hfind, hopen, settleChild, hterm, closeStream_tag, htag, hrem,
        exitIfIdle, hm5, finalActions, statusEmit]
  by_cases hemp : st.children.isEmpty = true
  · have hd : enterDrain st =
        (⟨Mode.finished, false, none, st.children⟩,
         liveSignals SIGTERM st.children ++
           [Action.closeChan Chan.ctl, Action.exitCode 0]) := by
      simp [enterDrain, hemp]
    refine ⟨?_, ?_, ?_, ?_, ?_, ?_, ?_, ?_, ?_, hreap, hpipe⟩
    · intro c hcm hl
      rw [hif, hd]
      exact List.mem_cons_of_mem _
        (List.mem_append_left _ (mem_liveSignals SIGTERM st.children c hcm hl))
    · rw [hif, hd]
    · rw [hif, hd]
      exact List.mem_cons_of_mem _ (List.mem_append_right _ (by simp))
    · rw [hif, hd]; simp
    · intro hne
      exact absurd (List.isEmpty_iff.mp hemp) hne
    · intro tag pid sfd fo fe
      rw [hif, hd]
      simp [step]
    · rfl
    · intro st2 h2 hg c hcm hl
      have : step st2 Event.graceExpired =
          ({ st2 with mode := Mode.hardDraining, grace := none },
           liveSignals SIGKILL st2.children) := by
        simp [step, h2, hg]
      rw [this]
      exact mem_liveSignals SIGKILL st2.children c hcm hl
    · intro _
      rw [hif, hd]
      refine ⟨List.mem_cons_of_mem _ (List.mem_append_right _ (by simp)), rfl⟩
  · have hd : enterDrain st =
        (⟨Mode.draining, false, some graceSeconds, st.children⟩,
         liveSignals SIGTERM st.children ++ [Action.closeChan Chan.ctl]) := by
      simp [enterDrain, hemp]
    refine ⟨?_, ?_, ?_, ?_, ?_, ?_, ?_, ?_, ?_, hreap, hpipe⟩
    · intro c hcm hl
      rw [hif, hd]
      exact List.mem_cons_of_mem _
        (List.mem_append_left _ (mem_liveSignals SIGTERM st.children c hcm hl))
    · rw [hif, hd]
    · rw [hif, hd]
      exact List.mem_cons_of_mem _ (List.mem_append_right _ (by simp))
    · rw [hif, hd]; simp
    · intro _
      rw [hif, hd]
    · intro tag pid sfd fo fe
      rw [hif, hd]
      simp [step]
    · rfl
    · intro st2 h2 hg c hcm hl
      have : step st2 Event.graceExpired =
          ({ st2 with mode := Mode.hardDraining, grace := none },
           liveSignals SIGKILL st2.children) := by
        simp [step, h2, hg]
      rw [this]
      exact mem_liveSignals SIGKILL st2.children c hcm hl
    · intro habs
      exact absurd (List.isEmpty_iff.mpr habs) hemp

/-- A concrete run-mode supervisor state with one live child, used to
instantiate the shutdown theorem. -/
def c3WitnessState : SupState :=
  ⟨Mode.run, true, none, [⟨7, 42, 5, true, false, none, false, false⟩]⟩

/-- Witness for C3: the shutdown behaviour at a concrete state with one
live child of pid 42. -/
theorem c3_shutdown_witness :
    (∀ c ∈ c3WitnessState.children, c.live = true →
      Action.sendSig SIGTERM c.pid ∈ (step c3WitnessState Event.ctlEof).2) ∧
    (step c3WitnessState Event.ctlEof).1.ctlOpen = false ∧
    Action.closeChan Chan.ctl ∈ (step c3WitnessState Event.ctlEof).2 ∧
    (step c3WitnessState Event.ctlEof).1.mode ≠ Mode.run ∧
    (c3WitnessState.children ≠ [] →
      (step c3WitnessState Event.ctlEof).1.grace = some graceSeconds) ∧
    (∀ tag pid sfd : Nat, ∀ fo fe : Bool, step (step c3WitnessState Event.ctlEof).1
      (Event.spawned tag pid sfd fo fe) = ((step c3WitnessState Event.ctlEof).1, [])) ∧
    step c3WitnessState Event.ctlReadError = step c3WitnessState Event.ctlEof ∧
    (∀ st2 : SupState, st2.mode = Mode.draining → st2.grace.isSome = true →
      ∀ c ∈ st2.children, c.live = true →
        Action.sendSig SIGKILL c.pid ∈ (step st2 Event.graceExpired).2) ∧
    (c3WitnessState.children = [] →
      Action.exitCode 0 ∈ (step c3WitnessState Event.ctlEof).2 ∧
      (step c3WitnessState Event.ctlEof).1.mode = Mode.finished) ∧
    (∀ st4 : SupState, ∀ tg4 ws : Nat, ∀ c4 : Child,
      st4.mode ≠ Mode.run → findChild tg4 st4.children = some c4 →
      c4.live = true → c4.outOpen = false → c4.errOpen = false →
      removeChild tg4 st4.children = [] →
      Action.exitCode 0 ∈ (step st4 (Event.childReaped tg4 ws)).2 ∧
      (step st4 (Event.childReaped tg4 ws)).1.mode = Mode.finished ∧
      (step st4 (Event.childReaped tg4 ws)).1.children = []) ∧
    (∀ st5 : SupState, ∀ tg5 v : Nat, ∀ c5 : Child,
      st5.mode ≠ Mode.run → findChild tg5 st5.children = some c5 →
      c5.streamOpen v = true → (c5.closeStream v).terminal = true →
      removeChild tg5 st5.children = [] →
      Action.exitCode 0 ∈ (step st5 (Event.pipeClosed tg5 v)).2 ∧
      (step st5 (Event.pipeClosed tg5 v)).1.mode = Mode.finished ∧
      (step st5 (Event.pipeClosed tg5 v)).1.children = []) :=
  c3_shutdown c3WitnessState rfl rfl

theorem findChild_updateChild {t : Nat} {f : Child → Child} {cs : List Child}
    {c : Child} (h : findChild t cs = some c) (hf : (f c).tag = c.tag) :
    findChild t (updateChild t f cs) = some (f c) := by
  induction cs with
  | nil => cases h
  | cons d r ih =>
    rw [findChild] at h
    rw [updateChild]
    by_cases hd : d.tag = t
    · rw [if_pos hd] at h
      injection h with h
      subst h
      rw [if_pos hd, findChild, if_pos (by rw [hf]; exact hd)]
    · rw [if_neg hd] at h
      rw [if_neg hd, findChild, if_neg hd]
      exact ih h

theorem mem_updateChild_of_ne {t : Nat} {f : Child → Child} {cs : List Child}
    {d : Child} (hd : d ∈ cs) (hne : d.tag ≠ t) : d ∈ updateChild t f cs := by
  induction cs with
  | nil => cases hd
  | cons a r ih =>
    rw [updateChild]
    rcases List.mem_cons.mp hd with h | h
    · subst h
      rw [if_neg hne]
      exact List.mem_cons_self d _
    · by_cases ha : a.tag = t
      · rw [if_pos ha]
        exact List.mem_cons_of_mem _ h
      · rw [if_neg ha]
        exact List.mem_cons_of_mem _ (ih h)

/-- A concrete supervisor state with one live, unsuppressed child of tag 7
and pid 42. -/
def c2WriteErrState : SupState :=
  ⟨Mode.run, true, none, [⟨7, 42, 5, true, false, none, false, false⟩]⟩

/-- Counterexample for C2: the claim says no signal is sent to any child
because of a status-channel write failure, but on a write error for tag 7
the supervisor does send SIGTERM to the associated child (pid 42), as the
protocol comment of src/subprocmgr.c specifies. -/
theorem c2_counterexample :
    Action.sendSig SIGTERM 42 ∈
      (step c2WriteErrState (Event.statusWriteError 7)).2 := by
  decide

/-- A concrete state with one suppressed child (tag 8) whose stdout pipe is
still open. -/
def c2SuppressedState : SupState :=
  ⟨Mode.run, true, none, [⟨8, 50, 6, true, false, none, true, true⟩]⟩

/-- A concrete state with one suppressed, live child (tag 9) whose pipes
are already closed. -/
def c2ReapState : SupState :=
  ⟨Mode.run, true, none, [⟨9, 60, 7, false, false, none, true, true⟩]⟩

/-- C2 (amended): when a write on a child's status pipe fails, the
supervisor sends SIGTERM to that child (scheduling the five-second SIGKILL
escalation), marks only that child suppressed, and keeps running; further
output of a suppressed child is read but discarded (no status data is
emitted for it), and a suppressed child is still reaped and deregistered,
silently. -/
theorem c2_write_error_policy (st st2 st3 : SupState) (tag tg2 tg3 v ws : Nat)
    (c c2 c3 : Child) (chunk : List Nat)
    (hc : findChild tag st.children = some c) (hs : c.suppressed = false)
    (hl : c.live = true)
    (hc2 : findChild tg2 st2.children = some c2) (hs2 : c2.suppressed = true)
    (ho2 : c2.streamOpen v = true) (hch : chunk ≠ [])
    (hc3 : findChild tg3 st3.children = some c3) (hs3 : c3.suppressed = true)
    (hl3 : c3.live = true) (ho3 : c3.outOpen = false) (he3 : c3.errOpen = false)
    (hm3 : st3.mode = Mode.run) :
    (step st (Event.statusWriteError tag)).2 = [Action.sendSig SIGTERM c.pid] ∧
    findChild tag (step st (Event.statusWriteError tag)).1.children =
      some c.suppress ∧
    (∀ d ∈ st.children, d.tag ≠ tag →
      d ∈ (step st (Event.statusWriteError tag)).1.children) ∧
    (step st (Event.statusWriteError tag)).1.mode = st.mode ∧
    (step st2 (Event.pipeData tg2 v chunk)).2 =
      [Action.readChan (Chan.childPipe tg2 v)] ∧
    (step st2 (Event.pipeData tg2 v chunk)).1 = st2 ∧
    (step st3 (Event.childReaped tg3 ws)).2 = [] ∧
    (step st3 (Event.childReaped tg3 ws)).1.children =
      removeChild tg3 st3.children := by
  have hstep : step st (Event.statusWriteError tag) =
      ({ st with children := updateChild tag (fun _ => c.suppress) st.children },
       [Action.sendSig SIGTERM c.pid]) := by
    simp [step, hc, hs, hl]
  have htag3 : c3.tag = tg3 := findChild_some_tag hc3
  have hw3 : c3.waitStatus = none := Option.isNone_iff_eq_none.mp hl3
  refine ⟨?_, ?_, ?_, ?_, ?_, ?_, ?_, ?_⟩
  · rw [hstep]
  · rw [hstep]
    exact findChild_updateChild hc rfl
  · intro d hd hne
    rw [hstep]
    exact mem_updateChild_of_ne hd hne
  · rw [hstep]
  · simp [step, hc2, ho2, hch, statusEmit, hs2]
  · simp [step, hc2, ho2, hch]
  · simp [step, hc3, Child.live, hl3, settleChild, Child.terminal, Child.live,
      ho3, he3, finalActions, statusEmit, hs3, exitIfIdle, hm3, htag3, hw3]
  · simp [step, hc3, Child.live, hl3, settleChild, Child.terminal, Child.live,
      ho3, he3, finalActions, statusEmit, hs3, exitIfIdle, hm3, htag3, hw3]

/-- Witness for the amended C2 at the three concrete states above. -/
theorem c2_write_error_policy_witness :
    (step c2WriteErrState (Event.statusWriteError 7)).2 =
      [Action.sendSig SIGTERM 42] ∧
    findChild 7 (step c2WriteErrState (Event.statusWriteError 7)).1.children =
      some ⟨7, 42, 5, true, false, none, true, true⟩ ∧
    (∀ d ∈ c2WriteErrState.children, d.tag ≠ 7 →
      d ∈ (step c2WriteErrState (Event.statusWriteError 7)).1.children) ∧
    (step c2WriteErrState (Event.statusWriteError 7)).1.mode =
      c2WriteErrState.mode ∧
    (step c2SuppressedState (Event.pipeData 8 1 [104])).2 =
      [Action.readChan (Chan.childPipe 8 1)] ∧
    (step c2SuppressedState (Event.pipeData 8 1 [104])).1 = c2SuppressedState ∧
    (step c2ReapState (Event.childReaped 9 0)).2 = [] ∧
    (step c2ReapState (Event.childReaped 9 0)).1.children =
      removeChild 9 c2ReapState.children :=
  c2_write_error_policy c2WriteErrState c2SuppressedState c2ReapState 7 8 9 1 0
    ⟨7, 42, 5, true, false, none, false, false⟩
    ⟨8, 50, 6, true, false, none, true, true⟩
    ⟨9, 60, 7, false, false, none, true, true⟩
    [104] rfl rfl rfl rfl rfl (by decide) (by decide) rfl rfl rfl rfl rfl rfl

/-- A concrete run-mode supervisor state with one live child of tag 7. -/
def duplicateTagState : SupState :=
  ⟨Mode.run, true, none, [⟨7, 41, 5, false, false, none, false, false⟩]⟩

/-- Counterexample for C6: the supervisor accepts a spawn request whose tag
7 equals the tag of a currently live child and the table then holds two
live records with tag 7: tag uniqueness is an invoker obligation, not
checked by the supervisor. -/
theorem c6_counterexample :
    ((step duplicateTagState (Event.spawned 7 43 6 false false)).1.children.filter
      (fun c => c.tag == 7 && c.live)).length = 2 := by
  decide

/-- Tags of the live children, in table order. -/
def liveTags (cs : List Child) : List Nat := (cs.filter Child.live).map Child.tag

theorem liveTags_cons (c : Child) (r : List Child) :
    liveTags (c :: r) =
      if c.live = true then c.tag :: liveTags r else liveTags r := by
  by_cases h : c.live = true <;> simp [liveTags, List.filter_cons, h]

theorem liveTags_sublist {cs ds : List Child} (h : List.Sublist cs ds) :
    List.Sublist (liveTags cs) (liveTags ds) :=
  List.Sublist.map _ (List.Sublist.filter _ h)

theorem removeChild_sublist (t : Nat) (cs : List Child) :
    List.Sublist (removeChild t cs) cs := by
  induction cs with
  | nil => simp [removeChild]
  | cons d r ih =>
    rw [removeChild]
    by_cases hd : d.tag = t
    · rw [if_pos hd]
      exact (List.Sublist.refl r).cons d
    · rw [if_neg hd]
      exact ih.cons₂ d

theorem liveTags_updateChild (t : Nat) (f : Child → Child) (cs : List Child)
    (hf : ∀ c, findChild t cs = some c →
      (f c).tag = c.tag ∧ ((f c).live = true → c.live = true)) :
    List.Sublist (liveTags (updateChild t f cs)) (liveTags cs) := by
  induction cs with
  | nil => simp [updateChild]
  | cons d r ih =>
    rw [updateChild]
    by_cases hd : d.tag = t
    · have hfd := hf d (by rw [findChild, if_pos hd])
      rw [if_pos hd, liveTags_cons, liveTags_cons]
      by_cases hl : (f d).live = true
      · rw [if_pos hl, if_pos (hfd.2 hl), hfd.1]
      · rw [if_neg hl]
        by_cases hdl : d.live = true
        · rw [if_pos hdl]
          exact (List.Sublist.refl _).cons _
        · rw [if_neg hdl]
    · have hf2 : ∀ c, findChild t r = some c →
          (f c).tag = c.tag ∧ ((f c).live = true → c.live = true) := by
        intro c hcr
        exact hf c (by rw [findChild, if_neg hd]; exact hcr)
      rw [if_neg hd, liveTags_cons, liveTags_cons]
      by_cases hdl : d.live = true
      · rw [if_pos hdl, if_pos hdl]
        exact (ih hf2).cons₂ _
      · rw [if_neg hdl, if_neg hdl]
        exact ih hf2

theorem liveTags_append_live (cs : List Child) (c : Child) (hl : c.live = true) :
    liveTags (cs ++ [c]) = liveTags cs ++ [c.tag] := by
  simp [liveTags, List.filter_append, List.filter_cons, hl]

theorem tag_not_mem_liveTags {cs : List Child} {t : Nat}
    (h : cs.all (fun c => !(c.live && c.tag == t)) = true) :
    t ∉ liveTags cs := by
  intro hmem
  rcases List.mem_map.mp hmem with ⟨c, hcf, htag⟩
  rcases List.mem_filter.mp hcf with ⟨hcm, hcl⟩
  have hall := List.all_eq_true.mp h c hcm
  simp [hcl, htag] at hall

/-- Invoker obligation from the protocol comment of src/subprocmgr.c: a
spawn event's tag must not equal the tag of a still-live child. -/
def spawnFresh (st : SupState) : Event → Bool
  | .spawned tag _ _ _ _ => st.children.all fun c => !(c.live && c.tag == tag)
  | _ => true

/-- All spawn events along a run respect tag freshness. -/
def runOk (st : SupState) : List Event → Bool
  | [] => true
  | e :: es => spawnFresh st e && runOk (step st e).1 es

/-- The state reached after processing a list of events. -/
def runState (st : SupState) : List Event → SupState
  | [] => st
  | e :: es => runState (step st e).1 es

theorem step_preserves_liveTags_nodup (st : SupState) (e : Event)
    (hfresh : spawnFresh st e = true) (h : (liveTags st.children).Nodup) :
    (liveTags (step st e).1.children).Nodup := by
  cases e with
  | ctlEof =>
    simp only [step]
    split
    · simp only [enterDrain]
      split <;> exact h
    · exact h
  | ctlReadError =>
    simp only [step]
    split
    · simp only [enterDrain]
      split <;> exact h
    · exact h
  | badFrame f =>
    simp only [step]
    split <;> exact h
  | spawned tag pid sfd fo fe =>
    simp only [step]
    split
    · have hfr : st.children.all (fun c => !(c.live && c.tag == tag)) = true := hfresh
      show (liveTags (st.children ++ [⟨tag, pid, sfd, fo, fe, none, false, false⟩])).Nodup
      rw [liveTags_append_live st.children ⟨tag, pid, sfd, fo, fe, none, false, false⟩ rfl,
        ← List.concat_eq_append]
      exact List.Nodup.concat (tag_not_mem_liveTags hfr) h
    · exact h
  | pipeData tag v chunk =>
    simp only [step]
    split
    · exact h
    · split <;> exact h
  | pipeClosed tag v =>
    simp only [step]
    split
    · exact h
    · rename_i c heq
      split
      · simp only [settleChild]
        split
        · simp only [exitIfIdle]
          split
          · exact List.Nodup.sublist (liveTags_sublist (removeChild_sublist _ _)) h
          · exact List.Nodup.sublist (liveTags_sublist (removeChild_sublist _ _)) h
        · have hf : ∀ c2, findChild (Child.closeStream c v).tag st.children = some c2 →
              ((fun _ => c.closeStream v) c2).tag = c2.tag ∧
              (((fun _ => c.closeStream v) c2).live = true → c2.live = true) := by
            intro c2 h2
            rw [closeStream_tag c v, findChild_some_tag heq, heq] at h2
            injection h2 with h2
            subst h2
            exact ⟨closeStream_tag c v, fun hl => by rw [← closeStream_live c v]; exact hl⟩
          exact List.Nodup.sublist (liveTags_updateChild _ _ _ hf) h
      · exact h
  | childReaped tag ws =>
    simp only [step]
    split
    · exact h
    · rename_i c heq
      split
      · simp only [settleChild]
        split
        · simp only [exitIfIdle]
          split
          · exact List.Nodup.sublist (liveTags_sublist (removeChild_sublist _ _)) h
          · exact List.Nodup.sublist (liveTags_sublist (removeChild_sublist _ _)) h
        · have hf : ∀ c2,
              findChild ({ c with waitStatus := some ws } : Child).tag st.children =
                some c2 →
              ((fun _ => ({ c with waitStatus := some ws } : Child)) c2).tag = c2.tag ∧
              (((fun _ => ({ c with waitStatus := some ws } : Child)) c2).live = true →
                c2.live = true) := by
            intro c2 h2
            rw [show ({ c with waitStatus := some ws } : Child).tag = c.tag from rfl,
              findChild_some_tag heq, heq] at h2
            injection h2 with h2
            subst h2
            exact ⟨rfl, fun hl => Bool.noConfusion hl⟩
          exact List.Nodup.sublist (liveTags_updateChild _ _ _ hf) h
      · exact h
  | graceExpired =>
    simp only [step]
    split <;> exact h
  | statusWriteError tag =>
    simp only [step]
    split
    · exact h
    · rename_i c heq
      split
      · have hf : ∀ c2, findChild tag st.children = some c2 →
            ((fun _ => c.suppress) c2).tag = c2.tag ∧
            (((fun _ => c.suppress) c2).live = true → c2.live = true) := by
          intro c2 h2
          rw [heq] at h2
          injection h2 with h2
          subst h2
          exact ⟨rfl, fun hl => hl⟩
        exact List.Nodup.sublist (liveTags_updateChild _ _ _ hf) h
      · exact h
  | killTimerExpired tag =>
    simp only [step]
    split
    · exact h
    · split <;> exact h

/-- C6 (amended): the supervisor does not reject a spawn whose tag is
already in use; the registry invariant that a tag identifies at most one
live child holds for exactly the runs in which the invoker honours its
obligation never to reuse the tag of a still-live child. -/
theorem c6_tag_uniqueness_amended (st : SupState) (es : List Event)
    (h1 : (liveTags st.children).Nodup) (h2 : runOk st es = true) :
    (liveTags (runState st es).children).Nodup := by
  induction es generalizing st with
  | nil => exact h1
  | cons e es ih =>
    rw [runOk, Bool.and_eq_true] at h2
    rw [runState]
    exact ih _ (step_preserves_liveTags_nodup st e h2.1 h1) h2.2

/-- Witness for the amended C6: a fresh-tag spawn followed by a reap keeps
the live tags duplicate-free. -/
theorem c6_tag_uniqueness_amended_witness :
    (liveTags (runState duplicateTagState
      [Event.spawned 8 43 6 false false, Event.childReaped 7 0]).children).Nodup :=
  c6_tag_uniqueness_amended duplicateTagState
    [Event.spawned 8 43 6 false false, Event.childReaped 7 0]
    (by decide) (by decide)

/-- Modelled from the spec: the child record registered for an accepted
request: its status channel is the request's first passed descriptor
(fds[0], the mandatory status pipe). -/
def launchChild (f : Frame) (tag pid : Nat) (fwdOut fwdErr : Bool) : Child :=
  ⟨tag, pid, f.fds.headD 0, fwdOut, fwdErr, none, false, false⟩

/-- The channels and actions the supervisor can ever use: it reads the
control channel and child pipes, writes status messages to status pipes,
writes diagnostics to stderr, closes its own descriptors, signals children
and exits. -/
def actionAllowed : Action → Bool
  | .readChan Chan.ctl => true
  | .readChan (Chan.childPipe _ _) => true
  | .writeMsg (Chan.statusPipe _) _ => true
  | .diagLine Chan.stderr => true
  | .closeChan Chan.ctl => true
  | .closeChan (Chan.childPipe _ _) => true
  | .closeFd _ => true
  | .sendSig _ _ => true
  | .exitCode _ => true
  | _ => false

theorem liveSignals_allowed {sig : Nat} {cs : List Child} {a : Action}
    (h : a ∈ liveSignals sig cs) : actionAllowed a = true := by
  rcases List.mem_map.mp h with ⟨c, _, rfl⟩
  rfl

theorem statusEmit_allowed {c : Child} {m : Msg} {a : Action}
    (h : a ∈ statusEmit c m) : actionAllowed a = true := by
  unfold statusEmit at h
  split at h
  · cases h
  · rw [List.mem_singleton] at h
    subst h
    rfl

theorem finalActions_allowed {c : Child} {a : Action} (h : a ∈ finalActions c) :
    actionAllowed a = true := by
  unfold finalActions at h
  split at h
  · exact statusEmit_allowed h
  · cases h

theorem exitIfIdle_allowed {st : SupState} {a : Action}
    (h : a ∈ (exitIfIdle st).2) : actionAllowed a = true := by
  unfold exitIfIdle at h
  split at h
  · rw [List.mem_singleton] at h
    subst h
    rfl
  · cases h

theorem settleChild_allowed {st : SupState} {c : Child} {a : Action}
    (h : a ∈ (settleChild st c).2) : actionAllowed a = true := by
  unfold settleChild at h
  split at h
  · rcases List.mem_append.mp h with h | h
    · exact finalActions_allowed h
    · exact exitIfIdle_allowed h
  · cases h

theorem enterDrain_allowed {st : SupState} {a : Action}
    (h : a ∈ (enterDrain st).2) : actionAllowed a = true := by
  unfold enterDrain at h
  split at h <;> rcases List.mem_append.mp h with h | h
  · exact liveSignals_allowed h
  · rcases List.mem_cons.mp h with h | h
    · subst h; rfl
    · rw [List.mem_singleton] at h; subst h; rfl
  · exact liveSignals_allowed h
  · rw [List.mem_singleton] at h; subst h; rfl

/-- Every action any event-loop step can emit is on an allowed channel. -/
theorem step_actions_allowed (st : SupState) (e : Event) (a : Action)
    (h : a ∈ (step st e).2) : actionAllowed a = true := by
  cases e with
  | ctlEof =>
    simp only [step] at h
    split at h
    · rcases List.mem_cons.mp h with h | h
      · subst h; rfl
      · exact enterDrain_allowed h
    · cases h
  | ctlReadError =>
    simp only [step] at h
    split at h
    · rcases List.mem_cons.mp h with h | h
      · subst h; rfl
      · exact enterDrain_allowed h
    · cases h
  | badFrame f =>
    simp only [step] at h
    split at h
    · rcases List.mem_cons.mp h with h | h
      · subst h; rfl
      · rcases List.mem_append.mp h with h | h
        · split at h
          · rw [List.mem_singleton] at h; subst h; rfl
          · rw [List.mem_singleton] at h; subst h; rfl
          · cases h
        · rcases List.mem_map.mp h with ⟨fd, _, rfl⟩
          rfl
    · cases h
  | spawned tag pid sfd fo fe =>
    simp only [step] at h
    split at h
    · rcases List.mem_cons.mp h with h | h
      · subst h; rfl
      · rw [List.mem_singleton] at h; subst h; rfl
    · cases h
  | pipeData tag v chunk =>
    simp only [step] at h
    split at h
    · cases h
    · split at h
      · rcases List.mem_cons.mp h with h | h
        · subst h; rfl
        · exact statusEmit_allowed h
      · cases h
  | pipeClosed tag v =>
    simp only [step] at h
    split at h
    · cases h
    · split at h
      · rcases List.mem_cons.mp h with h | h
        · subst h; rfl
        · rcases List.mem_cons.mp h with h | h
          · subst h; rfl
          · rcases List.mem_append.mp h with h | h
            · exact statusEmit_allowed h
            · exact settleChild_allowed h
      · cases h
  | childReaped tag ws =>
    simp only [step] at h
    split at h
    · cases h
    · split at h
      · exact settleChild_allowed h
      · cases h
  | graceExpired =>
    simp only [step] at h
    split at h
    · exact liveSignals_allowed h
    · cases h
  | statusWriteError tag =>
    simp only [step] at h
    split at h
    · cases h
    · split at h
      · split at h
        · rw [List.mem_singleton] at h; subst h; rfl
        · cases h
      · cases h
  | killTimerExpired tag =>
    simp only [step] at h
    split at h
    · cases h
    · split at h
      · rw [List.mem_singleton] at h; subst h; rfl
      · cases h

/-- C9: every status message any step writes goes to a status-pipe
channel, never to the control socket (or any other channel); the status
pipe registered for a child is the request's first passed descriptor, and
a request carrying no descriptors has no status channel. -/
theorem c9_status_channel (st : SupState) (e : Event) (chan : Chan) (m : Msg)
    (f : Frame) (tag pid : Nat) (fo fe : Bool)
    (h : Action.writeMsg chan m ∈ (step st e).2) :
    (∃ fd, chan = Chan.statusPipe fd) ∧
    chan ≠ Chan.ctl ∧
    (f.fds ≠ [] → statusChannel f = some (launchChild f tag pid fo fe).statusFd) ∧
    (f.fds = [] → statusChannel f = none) := by
  have ha := step_actions_allowed st e _ h
  refine ⟨?_, ?_, ?_, ?_⟩
  · cases chan with
    | statusPipe fd => exact ⟨fd, rfl⟩
    | stdin => exact Bool.noConfusion ha
    | stdout => exact Bool.noConfusion ha
    | stderr => exact Bool.noConfusion ha
    | ctl => exact Bool.noConfusion ha
    | childPipe t v => exact Bool.noConfusion ha
  · intro hEq
    subst hEq
    exact Bool.noConfusion ha
  · intro hne
    cases hfds : f.fds with
    | nil => exact absurd hfds hne
    | cons fd0 r => simp [statusChannel, launchChild, hfds]
  · intro hnil
    simp [statusChannel, hnil]

/-- A concrete run-mode supervisor state with an empty child table. -/
def emptyRunState : SupState := ⟨Mode.run, true, none, []⟩

/-- Witness for C9: the status-2 message of a concrete accepted spawn is
written on the status pipe passed as the request's first descriptor. -/
theorem c9_status_channel_witness :
    (∃ fd, Chan.statusPipe 5 = Chan.statusPipe fd) ∧
    Chan.statusPipe 5 ≠ Chan.ctl ∧
    ((⟨20, [5]⟩ : Frame).fds ≠ [] →
      statusChannel ⟨20, [5]⟩ = some (launchChild ⟨20, [5]⟩ 7 42 true false).statusFd) ∧
    ((⟨20, [5]⟩ : Frame).fds = [] → statusChannel ⟨20, [5]⟩ = none) :=
  c9_status_channel emptyRunState (Event.spawned 7 42 5 true false)
    (Chan.statusPipe 5) ⟨7, 2, 42, []⟩ ⟨20, [5]⟩ 7 42 true false (by decide)

/-- C10: no step of the supervisor ever writes to standard output or reads
from standard input, and every human-readable diagnostic line goes to
standard error. -/
theorem c10_no_stdio (st : SupState) (e : Event) (a : Action)
    (h : a ∈ (step st e).2) :
    (∀ m, a ≠ Action.writeMsg Chan.stdout m) ∧
    (∀ m, a ≠ Action.writeMsg Chan.stdin m) ∧
    a ≠ Action.readChan Chan.stdin ∧
    a ≠ Action.readChan Chan.stdout ∧
    (∀ chan, a = Action.diagLine chan → chan = Chan.stderr) := by
  have ha := step_actions_allowed st e a h
  refine ⟨?_, ?_, ?_, ?_, ?_⟩
  · intro m hEq
    subst hEq
    exact Bool.noConfusion ha
  · intro m hEq
    subst hEq
    exact Bool.noConfusion ha
  · intro hEq
    subst hEq
    exact Bool.noConfusion ha
  · intro hEq
    subst hEq
    exact Bool.noConfusion ha
  · intro chan hEq
    subst hEq
    cases chan with
    | stderr => rfl
    | stdin => exact Bool.noConfusion ha
    | stdout => exact Bool.noConfusion ha
    | ctl => exact Bool.noConfusion ha
    | statusPipe fd => exact Bool.noConfusion ha
    | childPipe t v => exact Bool.noConfusion ha

/-- Witness for C10: the control-channel read action of a concrete
accepted spawn touches neither standard input nor standard output. -/
theorem c10_no_stdio_witness :
    (∀ m, Action.readChan Chan.ctl ≠ Action.writeMsg Chan.stdout m) ∧
    (∀ m, Action.readChan Chan.ctl ≠ Action.writeMsg Chan.stdin m) ∧
    Action.readChan Chan.ctl ≠ Action.readChan Chan.stdin ∧
    Action.readChan Chan.ctl ≠ Action.readChan Chan.stdout ∧
    (∀ chan, Action.readChan Chan.ctl = Action.diagLine chan →
      chan = Chan.stderr) :=
  c10_no_stdio emptyRunState (Event.spawned 7 42 5 true false)
    (Action.readChan Chan.ctl) (by decide)

end Subprocmgr
